import Mathlib

/-!
# Verification of the deejX host-side engine

A shallow embedding, in Lean 4, of the parts of the deejX repository that the
verified claims concern:

* the serial wire-protocol decoder (`expectedLinePattern`, `handleLine`,
  `updateSliderCount`, `processSliderValues`, `calculateNormalizedValue`
  from `pkg/deej/serial.go`),
* the host-to-device message encoders and the master volume monitor
  (`sendSliderNamesToArduino`, `startMasterVolumeMonitor`,
  `startKeepAliveMessageSender` from `pkg/deej/deej.go`),
* the COM-port defaulting logic (`NewSerialIO` and
  `CanonicalConfig.populateFromVipers` from `pkg/deej/config.go`),
* the Windows session finder's enumeration pass and default-device-change
  callback (`GetAllSessions`, `getAllSessionsInternal`,
  `defaultDeviceChangedCallback` from `pkg/deej/session_finder_windows.go`).

Modelling conventions:

* `float32` values are modelled as rationals (`ℚ`); the protocol only ever
  produces values of the form `n/100` for small integers `n`, so none of the
  verified properties depend on binary floating-point rounding.
* Go slices of `float32` become `List ℚ`; an out-of-range `List.set` is a
  no-op (the Go code only indexes in bounds on the paths modelled here).
* The Go regexp `^(\d\x7b1,4\x7d|[=\+\^\-])(\|(\d\x7b1,4\x7d|[=\+\^\-]))*\r\n$`
  is embedded as a `RegularExpression Char` and `MatchString` as `rmatch`
  (the pattern is anchored on both sides, so a match is a full match).
* Goroutines, channels and timers are not modelled; the decoder, the monitor
  tick and the device-change callback are modelled as pure state-transition
  functions, and the session finder's enumeration pass as a function
  parameterised by an oracle describing the outcome of each native call,
  threading a ledger of opened and released native handles.
-/

namespace DeejX

/-! ## Wire protocol decoder state (serial.go) -/

/-- `SliderMoveEvent` from serial.go: `SliderID`, `PercentValue`, `Command`.
`float32` is modelled as `ℚ`. -/
structure SliderMoveEvent where
  SliderID : Nat
  PercentValue : ℚ
  Command : String
deriving DecidableEq, Repr

/-- The decoder-relevant fields of `SerialIO`: `lastKnownNumSliders` and
`currentSliderPercentValues`. -/
structure SerialState where
  lastKnownNumSliders : Nat
  currentSliderPercentValues : List ℚ
deriving DecidableEq, Repr

/-- The decoder-relevant configuration fields consumed read-only by the
serial layer. -/
structure Config where
  InvertSliders : Bool
deriving DecidableEq, Repr

/-! ## The line regular expression

serial.go: `expectedLinePattern = regexp.MustCompile(...)` with the pattern
`^(\d\x7b1,4\x7d|[=\+\^\-])(\|(\d\x7b1,4\x7d|[=\+\^\-]))*\r\n$`. -/

/-- A character class `[c₁c₂…]`: alternation of its characters. -/
def charClass (cs : List Char) : RegularExpression Char :=
  cs.foldr (fun c r => RegularExpression.char c + r) 0

/-- The ten ASCII digits matched by `\d` in Go's regexp. -/
def digitChars : List Char := ['0', '1', '2', '3', '4', '5', '6', '7', '8', '9']

/-- The four command/placeholder characters of the class `[=\+\^\-]`. -/
def commandChars : List Char := ['=', '+', '^', '-']

/-- `\d` as a regular expression. -/
def digitRE : RegularExpression Char := charClass digitChars

/-- `r{0,n}`: at most `n` repetitions of `r`. -/
def upToRE (r : RegularExpression Char) : Nat → RegularExpression Char
  | 0 => 1
  | n + 1 => 1 + r * upToRE r n

/-- `\d{1,4}`: one digit followed by at most three more. -/
def digitsRE14 : RegularExpression Char := digitRE * upToRE digitRE 3

/-- One field: `(\d{1,4}|[=\+\^\-])`. -/
def fieldRE : RegularExpression Char := digitsRE14 + charClass commandChars

/-- The full anchored line pattern from serial.go:
`^(field)(\|(field))*\r\n$`. -/
def expectedLinePattern : RegularExpression Char :=
  fieldRE *
    ((RegularExpression.char '|' * fieldRE).star *
      (RegularExpression.char '\r' * RegularExpression.char '\n'))

/-! ## Decoder helper functions (serial.go) -/

/-- `strings.TrimSuffix(line, "\r\n")`. -/
def trimSuffixCRLF (l : List Char) : List Char :=
  if 2 ≤ l.length ∧ l.drop (l.length - 2) = ['\r', '\n'] then
    l.take (l.length - 2)
  else l

/-- `strings.Split(s, "|")` for a single-character separator: always returns
one part more than the number of separators, parts may be empty. -/
def splitOnChar (sep : Char) : List Char → List (List Char)
  | [] => [[]]
  | c :: rest =>
    let r := splitOnChar sep rest
    if c = sep then [] :: r else (c :: r.headI) :: r.tail

/-- `strconv.Atoi` restricted to the decoder's call sites: the regular
expression guarantees that every field reaching it is a string of 1–4 ASCII
digits; any other input yields `0` (Go's `Atoi` returns `0` together with an
error that the decoder discards). -/
def atoi (l : List Char) : Int :=
  if l ≠ [] ∧ l.all (fun c => digitChars.contains c) then
    ((l.foldl (fun acc c => acc * 10 + (c.toNat - 48)) 0 : Nat) : Int)
  else 0

/-- `util.NormalizeScalar`. Modelled from the spec: the function lives in the
`pkg/deej/util` package, which is not among the repository's source files;
the spec says the converted value is "`percent/100` clamped to `[0,1]`". -/
def normalizeScalar (q : ℚ) : ℚ := if q < 0 then 0 else if 1 < q then 1 else q

/-- serial.go `calculateNormalizedValue`: divide the raw reading by 100,
normalize, and invert if the invert-sliders option is set. -/
def calculateNormalizedValue (cfg : Config) (rawValue : Int) : ℚ :=
  let dirtyFloat : ℚ := (rawValue : ℚ) / 100
  let normalizedScalar := normalizeScalar dirtyFloat
  if cfg.InvertSliders then 1 - normalizedScalar else normalizedScalar

/-- serial.go `updateSliderCount`: when the field count differs from
`lastKnownNumSliders`, re-size the value-history buffer and fill it with the
sentinel `-1.0`. -/
def updateSliderCount (st : SerialState) (numSliders : Nat) : SerialState :=
  if numSliders ≠ st.lastKnownNumSliders then
    { lastKnownNumSliders := numSliders
      currentSliderPercentValues := List.replicate numSliders (-1 : ℚ) }
  else st

/-- The loop body of serial.go `processSliderValues`, with the absolute field
index made explicit. Field `"="` is skipped; `"+"`, `"-"`, `"^"` emit a
command event with `PercentValue` 1.0 and no history write; a numeric field
at index 0 whose value exceeds 100 aborts the whole line, returning the
events accumulated so far; any other numeric field overwrites the history
entry and emits a `Set` event (`Command` `"="`). The noise-reduction
comparison present in older revisions is commented out in the source and is
therefore absent here. -/
def processLoop (cfg : Config) (vals : List ℚ) (idx : Nat) :
    List (List Char) → List ℚ × List SliderMoveEvent
  | [] => (vals, [])
  | f :: rest =>
    if f = ['='] then
      processLoop cfg vals (idx + 1) rest
    else if f = ['+'] ∨ f = ['-'] ∨ f = ['^'] then
      let ev : SliderMoveEvent := ⟨idx, 1, String.mk f⟩
      let r := processLoop cfg vals (idx + 1) rest
      (r.1, ev :: r.2)
    else
      let number := atoi f
      if idx = 0 ∧ 100 < number then
        (vals, [])
      else
        let normalizedScalar := calculateNormalizedValue cfg number
        let ev : SliderMoveEvent := ⟨idx, normalizedScalar, "="⟩
        let r := processLoop cfg (vals.set idx normalizedScalar) (idx + 1) rest
        (r.1, ev :: r.2)

/-- serial.go `processSliderValues`: run the loop from field index 0. -/
def processSliderValues (cfg : Config) (vals : List ℚ)
    (splitLine : List (List Char)) : List ℚ × List SliderMoveEvent :=
  processLoop cfg vals 0 splitLine

/-- serial.go `handleLine`: drop the line unless it matches
`expectedLinePattern`; otherwise trim the terminator, split on `|`, update
the slider count and process the fields. Returns the new decoder state and
the events that would be delivered to subscribers; an invalid line returns
the state unchanged and no events (and no error: the Go function has no
error return at all). -/
def handleLine (cfg : Config) (st : SerialState) (line : List Char) :
    SerialState × List SliderMoveEvent :=
  if expectedLinePattern.rmatch line then
    let trimmed := trimSuffixCRLF line
    let splitLine := splitOnChar '|' trimmed
    let st1 := updateSliderCount st splitLine.length
    let r := processSliderValues cfg st1.currentSliderPercentValues splitLine
    ({ st1 with currentSliderPercentValues := r.1 }, r.2)
  else (st, [])

/-! ## The spec-side line grammar

For the refinement claim C3 only: the grammar as the spec words it, "one or
more fields separated by `|`, each field either 1–4 ASCII digits or one of
the single characters `=`,`+`,`-`,`^`", with the `\r\n` terminator. -/

/-- A single grammatically valid field, following the spec's words. -/
def validField (f : List Char) : Prop :=
  ((∀ c ∈ f, c ∈ digitChars) ∧ 1 ≤ f.length ∧ f.length ≤ 4) ∨
    ∃ c ∈ commandChars, f = [c]

/-- Join fields with the `|` separator. -/
def joinFields : List (List Char) → List Char
  | [] => []
  | f :: rest => f ++ (rest.map (fun g => '|' :: g)).flatten

/-- A device line valid per the spec's grammar: one or more valid fields
joined by `|`, terminated by `\r\n`. -/
def specValidLine (s : List Char) : Prop :=
  ∃ fs : List (List Char),
    fs ≠ [] ∧ (∀ f ∈ fs, validField f) ∧ s = joinFields fs ++ ['\r', '\n']

/-! ## COM-port defaulting (C9) -/

/-- config.go: `defaultCOMPort = "COM4"`. -/
def defaultCOMPort : String := "COM4"

/-- serial.go `NewSerialIO`: an empty configured COM port is replaced by the
literal `"COM5"` (while the accompanying log message promises `COM4`). -/
def newSerialIOComPort (configured : String) : String :=
  if configured = "" then "COM5" else configured

/-- config.go `populateFromVipers`: an empty `com_port` value is replaced by
`defaultCOMPort`. -/
def populateFromVipersComPort (fromViper : String) : String :=
  if fromViper = "" then defaultCOMPort else fromViper

/-! ## Host→device message encoders (deej.go) -/

/-- Go's `int(x)` conversion from a float: truncation toward zero. -/
def goTrunc (q : ℚ) : ℤ := if q < 0 then ⌈q⌉ else ⌊q⌋

/-- deej.go: `volumePercent := int(currentVolume * 100)`. -/
def volumePercentOf (v : ℚ) : ℤ := goTrunc (v * 100)

/-- config.go `populateFromVipers` (map-format slider names):
`strings.Join(sliderNames, "|")`. -/
def joinedSliderNames (names : List String) : String := String.intercalate "|" names

/-- deej.go `sendSliderNamesToArduino`: `fmt.Sprintf("<^%s>", SliderNames)`. -/
def sliderNamesMessage (sliderNames : String) : String := "<^" ++ sliderNames ++ ">"

/-- deej.go master-state update, used both by `startMasterVolumeMonitor` and
`SendInitialMasterVolume`: `fmt.Sprintf("<!%d|%d>", muteState, volumePercent)`
with `muteState` 1 for muted and 0 otherwise. -/
def masterUpdateMessage (mute : Bool) (v : ℚ) : String :=
  "<!" ++ toString (if mute then (1 : ℤ) else 0) ++ "|" ++
    toString (volumePercentOf v) ++ ">"

/-- deej.go `startKeepAliveMessageSender`: `const keepAliveMessage = "<#>"`. -/
def keepAliveMessage : String := "<#>"

/-! ## Master volume monitor (deej.go `startMasterVolumeMonitor`) -/

/-- `lowFreqInterval = 10 * time.Millisecond` in deej.go. -/
def lowFreqIntervalMs : Nat := 10

/-- `highFreqInterval = 10 * time.Millisecond` in deej.go. -/
def highFreqIntervalMs : Nat := 10

/-- `stableThreshold = 100`: stable cycles before returning to low
frequency. -/
def stableThreshold : Nat := 100

/-- The monitor goroutine's loop variables: current ticker interval (in
milliseconds), last observed volume and mute, and the stability counter. -/
structure MonitorState where
  interval : Nat
  lastVolume : ℚ
  lastMute : Bool
  stableCounter : Nat
deriving DecidableEq, Repr

/-- One `<-ticker.C` iteration of the monitor loop, given the master
session's current volume and mute: on any difference (the volume comparison
is an exact `!=`; the `SignificantlyDifferent` call is commented out in this
revision) it sends the update message, records the new values, zeroes the
stability counter and moves to the high-frequency interval; otherwise it
increments the counter and, at the threshold, falls back to the
low-frequency interval. Returns the new loop state and the message sent, if
any. -/
def monitorTick (st : MonitorState) (currentVolume : ℚ) (currentMute : Bool) :
    MonitorState × Option String :=
  if st.lastVolume ≠ currentVolume ∨ currentMute ≠ st.lastMute then
    (⟨if st.interval ≠ highFreqIntervalMs then highFreqIntervalMs else st.interval,
      currentVolume, currentMute, 0⟩,
      some (masterUpdateMessage currentMute currentVolume))
  else
    (⟨if stableThreshold ≤ st.stableCounter + 1 ∧ st.interval ≠ lowFreqIntervalMs then
        lowFreqIntervalMs
      else st.interval,
      st.lastVolume, st.lastMute, st.stableCounter + 1⟩, none)

/-- A tick on which the master session reports the same volume and mute as
last observed. -/
def tickStable (st : MonitorState) : MonitorState :=
  (monitorTick st st.lastVolume st.lastMute).1

/-! ## Default-device-change callback (session_finder_windows.go) -/

/-- The stale/released flags of a master session. Modelled from the spec:
the master-session implementation is not among the repository's source
files; the spec says a session can be marked stale and can be released. -/
structure MasterSessionModel where
  stale : Bool
  released : Bool
deriving DecidableEq, Repr

/-- Modelled from the spec: `markAsStale` marks the session stale, "forcing
re-acquisition before further use". -/
def markAsStale (m : MasterSessionModel) : MasterSessionModel :=
  { m with stale := true }

/-- The callback-relevant fields of `wcaSessionFinder`:
`lastDefaultDeviceChange` (a time, modelled in milliseconds) and the two
optional master sessions. -/
structure FinderNotificationState where
  lastDefaultDeviceChange : ℤ
  masterOut : Option MasterSessionModel
  masterIn : Option MasterSessionModel
deriving DecidableEq, Repr

/-- `minDefaultDeviceChangeThreshold = 100 * time.Millisecond`. -/
def minDefaultDeviceChangeThresholdMs : ℤ := 100

/-- session_finder_windows.go `defaultDeviceChangedCallback`: if
`lastDefaultDeviceChange.Add(threshold).After(now)` (that is, less than the
threshold has elapsed) the callback returns immediately; otherwise it
records `now` and marks the existing master output and input sessions stale.
It never calls `Release` on either session. -/
def defaultDeviceChangedCallback (sf : FinderNotificationState) (now : ℤ) :
    FinderNotificationState :=
  if now < sf.lastDefaultDeviceChange + minDefaultDeviceChangeThresholdMs then sf
  else
    { lastDefaultDeviceChange := now
      masterOut := sf.masterOut.map markAsStale
      masterIn := sf.masterIn.map markAsStale }

/-! ## The session-enumeration pass (session_finder_windows.go)

`GetAllSessions` / `getAllSessionsInternal` and their callees, modelled over
an oracle (`FinderEnv`) fixing the outcome of every native call, and a
ledger recording which native handles were opened and released. Opening a
COM object (`CoCreateInstance`, `GetDefaultAudioEndpoint`, `Activate`,
`QueryInterface`, `GetSession`, `EnumAudioEndpoints`,
`OpenPropertyStore`, ...) allocates a fresh handle id; `Release` records the
id as released. -/

/-- The ledger of native handles: a fresh-id counter and the ids opened and
released so far. -/
structure Ledger where
  nextId : Nat
  opened : List Nat
  released : List Nat
deriving DecidableEq, Repr

/-- Open a native handle: returns the fresh id and records it. -/
def allocHandle (L : Ledger) : Nat × Ledger :=
  (L.nextId, ⟨L.nextId + 1, L.opened ++ [L.nextId], L.released⟩)

/-- `Release()` on a native handle. -/
def releaseHandle (h : Nat) (L : Ledger) : Ledger :=
  { L with released := L.released ++ [h] }

/-- A session as the set of native handles it owns: a master session owns
its `IAudioEndpointVolume`, a process session its `IAudioSessionControl2`
and `ISimpleAudioVolume`. -/
inductive WSession where
  | master (volumeHandle : Nat)
  | process (control2 : Nat) (simpleVolume : Nat)
deriving DecidableEq, Repr

/-- Modelled from the spec: `Session.Release()` frees the session's native
handles (the session implementations are not among the repository's source
files). -/
def releaseWSession (s : WSession) (L : Ledger) : Ledger :=
  match s with
  | .master h => releaseHandle h L
  | .process c v => releaseHandle v (releaseHandle c L)

/-- The result of `newWCASession` for one enumerated audio session. -/
inductive NewSessionResult where
  | ok
  | noSuchProcess
  | otherErr
deriving DecidableEq, Repr

/-- Oracle for one audio session inside `processSession`. -/
structure SessionOutcome where
  getSessionOk : Bool
  qiControl2Ok : Bool
  qiSimpleVolumeOk : Bool
  pidOk : Bool
  newSessionResult : NewSessionResult
deriving DecidableEq, Repr

/-- Oracle for one device inside `processDevice` / `handleDevice`. -/
structure DeviceOutcome where
  itemOk : Bool
  openPropertyStoreOk : Bool
  getDescriptionOk : Bool
  getFriendlyNameOk : Bool
  qiEndpointOk : Bool
  getDataFlowOk : Bool
  isRender : Bool
  activateSessionManagerOk : Bool
  getSessionEnumeratorOk : Bool
  sessionCountOk : Bool
  sessionOutcomes : List SessionOutcome
  activateVolumeOk : Bool
deriving DecidableEq, Repr

/-- Oracle for one full enumeration pass. The environment is fixed for the
duration of the pass, so each `withRetry` attempt sees the same outcomes. -/
structure FinderEnv where
  comInitOk : Bool
  connected : Bool
  coCreateEnumeratorOk : Bool
  registerCallbackOk : Bool
  defaultOutOk : Bool
  hasDefaultIn : Bool
  masterOutActivateOk : Bool
  masterInActivateOk : Bool
  enumEndpointsOk : Bool
  deviceCountOk : Bool
  devices : List DeviceOutcome
deriving DecidableEq, Repr

/-- `getMasterSession`: `Activate(IID_IAudioEndpointVolume)` opens the
volume handle, then `newMasterSession` wraps it (its failure path is not
exercised; the constructor is not among the repository's sources). -/
def getMasterSessionF (activateOk : Bool) (L : Ledger) : Option WSession × Ledger :=
  if activateOk then
    (some (WSession.master (allocHandle L).1), (allocHandle L).2)
  else (none, L)

/-- `setupMasterSessions`: master output first (failure aborts), then the
master input when a default input endpoint exists. -/
def setupMasterSessionsF (env : FinderEnv) (L : Ledger) :
    Option (List WSession) × Ledger :=
  match getMasterSessionF env.masterOutActivateOk L with
  | (none, L1) => (none, L1)
  | (some mOut, L1) =>
    if env.hasDefaultIn then
      match getMasterSessionF env.masterInActivateOk L1 with
      | (none, L2) => (none, L2)
      | (some mIn, L2) => (some [mOut, mIn], L2)
    else (some [mOut], L1)

/-- `getAudioSessionControl2`: `GetSession` opens the session-control handle
(released by `defer`), `QueryInterface(IID_IAudioSessionControl2)` opens the
control2 handle returned to the caller. -/
def getAudioSessionControl2F (so : SessionOutcome) (L : Ledger) :
    Option Nat × Ledger :=
  if so.getSessionOk then
    let r0 := allocHandle L
    if so.qiControl2Ok then
      let r2 := allocHandle r0.2
      (some r2.1, releaseHandle r0.1 r2.2)
    else (none, releaseHandle r0.1 r0.2)
  else (none, L)

/-- `processSession`: builds one process session, appending it to the pass's
session slice. On `errNoSuchProcess` from `newWCASession` both handles are
released and the session is skipped; on any other `newWCASession` error the
source returns the error without releasing either handle. -/
def processSessionF (so : SessionOutcome) (acc : List WSession) (L : Ledger) :
    Bool × List WSession × Ledger :=
  match getAudioSessionControl2F so L with
  | (none, L1) => (false, acc, L1)
  | (some c2, L1) =>
    if so.qiSimpleVolumeOk then
      let rv := allocHandle L1
      if so.pidOk then
        match so.newSessionResult with
        | .ok => (true, acc ++ [WSession.process c2 rv.1], rv.2)
        | .noSuchProcess => (true, acc, releaseHandle rv.1 (releaseHandle c2 rv.2))
        | .otherErr => (false, acc, rv.2)
      else (false, acc, releaseHandle rv.1 (releaseHandle c2 rv.2))
    else (false, acc, releaseHandle c2 L1)

/-- The `for sessionIdx := range sessionCount` loop of
`processAudioSessions`. -/
def processSessionsLoopF : List SessionOutcome → List WSession → Ledger →
    Bool × List WSession × Ledger
  | [], acc, L => (true, acc, L)
  | so :: rest, acc, L =>
    match processSessionF so acc L with
    | (false, acc1, L1) => (false, acc1, L1)
    | (true, acc1, L1) => processSessionsLoopF rest acc1 L1

/-- `processAudioSessions`: `GetCount` then the session loop. -/
def processAudioSessionsF (d : DeviceOutcome) (acc : List WSession) (L : Ledger) :
    Bool × List WSession × Ledger :=
  if d.sessionCountOk then processSessionsLoopF d.sessionOutcomes acc L
  else (false, acc, L)

/-- `getSessionEnumerator`: activate the `IAudioSessionManager2` (released by
`defer`), then `GetSessionEnumerator`. -/
def getSessionEnumeratorF (d : DeviceOutcome) (L : Ledger) : Option Nat × Ledger :=
  if d.activateSessionManagerOk then
    let rm := allocHandle L
    if d.getSessionEnumeratorOk then
      let re := allocHandle rm.2
      (some re.1, releaseHandle rm.1 re.2)
    else (none, releaseHandle rm.1 rm.2)
  else (none, L)

/-- `enumerateAndAddProcessSessions`: session enumerator (released by
`defer`) around the audio-session processing. -/
def enumerateAndAddProcessSessionsF (d : DeviceOutcome) (acc : List WSession)
    (L : Ledger) : Bool × List WSession × Ledger :=
  match getSessionEnumeratorF d L with
  | (none, L1) => (false, acc, L1)
  | (some e, L1) =>
    match processAudioSessionsF d acc L1 with
    | (ok, acc1, L2) => (ok, acc1, releaseHandle e L2)

/-- `handleDevice`: for render endpoints, enumerate process sessions; then
open the device's own master session and append it. -/
def handleDeviceF (d : DeviceOutcome) (acc : List WSession) (L : Ledger) :
    Bool × List WSession × Ledger :=
  match (if d.isRender then enumerateAndAddProcessSessionsF d acc L
         else (true, acc, L)) with
  | (false, acc1, L1) => (false, acc1, L1)
  | (true, acc1, L1) =>
    match getMasterSessionF d.activateVolumeOk L1 with
    | (none, L2) => (false, acc1, L2)
    | (some s, L2) => (true, acc1 ++ [s], L2)

/-- `getDeviceInfo`: property store (released by `defer`), the two
`GetValue` calls, the `IMMEndpoint` query-interface (released by `defer`)
and `GetDataFlow`. Returns only success or failure; the info itself is in
the device oracle. -/
def getDeviceInfoF (d : DeviceOutcome) (L : Ledger) : Bool × Ledger :=
  if d.openPropertyStoreOk then
    let rp := allocHandle L
    if d.getDescriptionOk then
      if d.getFriendlyNameOk then
        if d.qiEndpointOk then
          let rq := allocHandle rp.2
          if d.getDataFlowOk then (true, releaseHandle rq.1 (releaseHandle rp.1 rq.2))
          else (false, releaseHandle rq.1 (releaseHandle rp.1 rq.2))
        else (false, releaseHandle rp.1 rp.2)
      else (false, releaseHandle rp.1 rp.2)
    else (false, releaseHandle rp.1 rp.2)
  else (false, L)

/-- `processDevice`: `Item` opens the endpoint (released by `defer`), then
device info, then `handleDevice`. -/
def processDeviceF (d : DeviceOutcome) (acc : List WSession) (L : Ledger) :
    Bool × List WSession × Ledger :=
  if d.itemOk then
    let re := allocHandle L
    match getDeviceInfoF d re.2 with
    | (false, L1) => (false, acc, releaseHandle re.1 L1)
    | (true, L1) =>
      match handleDeviceF d acc L1 with
      | (ok, acc1, L2) => (ok, acc1, releaseHandle re.1 L2)
  else (false, acc, L)

/-- The `for deviceIdx` loop of `enumerateAndAddSessions`'s attempt. -/
def processDevicesLoopF : List DeviceOutcome → List WSession → Ledger →
    Bool × List WSession × Ledger
  | [], acc, L => (true, acc, L)
  | d :: rest, acc, L =>
    match processDeviceF d acc L with
    | (false, acc1, L1) => (false, acc1, L1)
    | (true, acc1, L1) => processDevicesLoopF rest acc1 L1

/-- One attempt of the closure passed to `withRetry`:
`EnumAudioEndpoints` opens the device collection (released by `defer`),
`GetCount`, then the device loop. The session slice is reached through a
pointer, so sessions appended before a failure stay in the slice. -/
def enumerateAttemptF (env : FinderEnv) (acc : List WSession) (L : Ledger) :
    Bool × List WSession × Ledger :=
  if env.enumEndpointsOk then
    let rc := allocHandle L
    if env.deviceCountOk then
      match processDevicesLoopF env.devices acc rc.2 with
      | (ok, acc1, L1) => (ok, acc1, releaseHandle rc.1 L1)
    else (false, acc, releaseHandle rc.1 rc.2)
  else (false, acc, L)

/-- `withRetry` around the enumeration attempt: up to `maxRetries = 3`
attempts; a failed attempt leaves its appends in the shared slice and the
next attempt appends after them. -/
def enumerateWithRetryF (env : FinderEnv) : Nat → List WSession → Ledger →
    Bool × List WSession × Ledger
  | 0, acc, L => (false, acc, L)
  | n + 1, acc, L =>
    match enumerateAttemptF env acc L with
    | (true, acc1, L1) => (true, acc1, L1)
    | (false, acc1, L1) => enumerateWithRetryF env n acc1 L1

/-- `getAllSessionsInternal`: COM init, the connection check
(`getDeviceEnumerator` + `registerDefaultDeviceChangeCallback` when not
connected), the default endpoints (both released by `defer` on every path
below), `setupMasterSessions`, then the retried enumeration. Every error
path returns `nil` for the session slice — `return nil, err` — so the
sessions accumulated by a partially failed pass are not returned to
`GetAllSessions`. -/
def getAllSessionsInternalF (env : FinderEnv) (L : Ledger) :
    Option (List WSession) × Ledger :=
  if env.comInitOk then
    match (if env.connected then (true, L)
           else if env.coCreateEnumeratorOk then
             (env.registerCallbackOk, (allocHandle L).2)
           else (false, L)) with
    | (false, L1) => (none, L1)
    | (true, L1) =>
      if env.defaultOutOk then
        let ro := allocHandle L1
        match (if env.hasDefaultIn then
                 ((allocHandle ro.2).2, some (allocHandle ro.2).1)
               else (ro.2, none)) with
        | (L2, inEp) =>
          let closeEndpoints : Ledger → Ledger := fun LX =>
            match inEp with
            | some hIn => releaseHandle hIn (releaseHandle ro.1 LX)
            | none => releaseHandle ro.1 LX
          match setupMasterSessionsF env L2 with
          | (none, L3) => (none, closeEndpoints L3)
          | (some masters, L3) =>
            match enumerateWithRetryF env 3 masters L3 with
            | (false, _, L4) => (none, closeEndpoints L4)
            | (true, acc, L4) => (some acc, closeEndpoints L4)
      else (none, L1)
  else (none, L)

/-- The `cleanup` closure of `GetAllSessions`: release every session in the
slice it is given. -/
def cleanupSessionsF (ss : List WSession) (L : Ledger) : Ledger :=
  ss.foldl (fun acc s => releaseWSession s acc) L

/-- `GetAllSessions`: run the internal pass; on error run `cleanup` over the
returned slice — which the internal pass returns as `nil` on every error
path, so the cleanup has nothing to release. -/
def GetAllSessionsF (env : FinderEnv) (L : Ledger) :
    Option (List WSession) × Ledger :=
  match getAllSessionsInternalF env L with
  | (none, L1) => (none, cleanupSessionsF [] L1)
  | (some ss, L1) => (some ss, L1)

/-- A concrete failing pass: fresh connection, default output endpoint and
master-output activation succeed, no default input, and
`EnumAudioEndpoints` fails on all three retry attempts. Handle 0 is the
device enumerator, handle 1 the default output endpoint, handle 2 the
master-output `IAudioEndpointVolume`. -/
def c5Env : FinderEnv :=
  { comInitOk := true
    connected := false
    coCreateEnumeratorOk := true
    registerCallbackOk := true
    defaultOutOk := true
    hasDefaultIn := false
    masterOutActivateOk := true
    masterInActivateOk := true
    enumEndpointsOk := false
    deviceCountOk := true
    devices := [] }

/-! ## Language of the line pattern

The bridge between the source regular expression and the spec's grammar. -/

theorem charClass_nil : charClass [] = 0 := rfl

theorem charClass_cons (c : Char) (cs : List Char) :
    charClass (c :: cs) = RegularExpression.char c + charClass cs := rfl

theorem charClass_rmatch_iff (cs : List Char) (x : List Char) :
    (charClass cs).rmatch x = true ↔ ∃ c ∈ cs, x = [c] := by
  induction cs with
  | nil =>
    rw [charClass_nil]
    simp [RegularExpression.zero_rmatch]
  | cons c cs ih =>
    rw [charClass_cons]
    constructor
    · intro h
      rcases (RegularExpression.add_rmatch_iff _ _ x).mp h with h1 | h2
      · exact ⟨c, List.mem_cons_self c cs, (RegularExpression.char_rmatch_iff c x).mp h1⟩
      · rcases ih.mp h2 with ⟨d, hd, rfl⟩
        exact ⟨d, List.mem_cons_of_mem c hd, rfl⟩
    · rintro ⟨d, hd, rfl⟩
      apply (RegularExpression.add_rmatch_iff _ _ [d]).mpr
      rcases List.mem_cons.mp hd with rfl | hd
      · exact Or.inl ((RegularExpression.char_rmatch_iff d [d]).mpr rfl)
      · exact Or.inr (ih.mpr ⟨d, hd, rfl⟩)

theorem upToRE_digit_rmatch_iff (n : ℕ) (x : List Char) :
    (upToRE digitRE n).rmatch x = true ↔ (∀ c ∈ x, c ∈ digitChars) ∧ x.length ≤ n := by
  induction n generalizing x with
  | zero =>
    rw [upToRE]
    constructor
    · intro h
      have hx := (RegularExpression.one_rmatch_iff x).mp h
      subst hx
      simp
    · rintro ⟨-, hlen⟩
      have hx : x = [] := List.length_eq_zero.mp (Nat.le_zero.mp hlen)
      subst hx
      exact (RegularExpression.one_rmatch_iff []).mpr rfl
  | succ n ih =>
    rw [upToRE]
    constructor
    · intro h
      rcases (RegularExpression.add_rmatch_iff _ _ x).mp h with h1 | h2
      · have hx := (RegularExpression.one_rmatch_iff x).mp h1
        subst hx
        simp
      · rcases (RegularExpression.mul_rmatch_iff _ _ x).mp h2 with ⟨t, u, rfl, ht, hu⟩
        rcases (charClass_rmatch_iff digitChars t).mp ht with ⟨d, hd, rfl⟩
        rcases (ih u).mp hu with ⟨hall, hlen⟩
        constructor
        · intro e he
          rcases List.mem_append.mp he with he | he
          · rcases List.mem_singleton.mp he with rfl
            exact hd
          · exact hall e he
        · simp only [List.length_append, List.length_singleton]
          omega
    · rintro ⟨hall, hlen⟩
      cases x with
      | nil =>
        exact (RegularExpression.add_rmatch_iff _ _ _).mpr
          (Or.inl ((RegularExpression.one_rmatch_iff []).mpr rfl))
      | cons c rest =>
        apply (RegularExpression.add_rmatch_iff _ _ _).mpr
        refine Or.inr ((RegularExpression.mul_rmatch_iff _ _ _).mpr ⟨[c], rest, rfl, ?_, ?_⟩)
        · exact (charClass_rmatch_iff _ _).mpr ⟨c, hall c (List.mem_cons_self _ _), rfl⟩
        · refine (ih rest).mpr ⟨fun e he => hall e (List.mem_cons_of_mem _ he), ?_⟩
          have : rest.length + 1 ≤ n + 1 := by simpa using hlen
          omega

theorem digitsRE14_rmatch_iff (x : List Char) :
    digitsRE14.rmatch x = true ↔
      (∀ c ∈ x, c ∈ digitChars) ∧ 1 ≤ x.length ∧ x.length ≤ 4 := by
  constructor
  · intro h
    rcases (RegularExpression.mul_rmatch_iff _ _ x).mp h with ⟨t, u, rfl, ht, hu⟩
    rcases (charClass_rmatch_iff digitChars t).mp ht with ⟨d, hd, rfl⟩
    rcases (upToRE_digit_rmatch_iff 3 u).mp hu with ⟨hall, hlen⟩
    refine ⟨?_, ?_, ?_⟩
    · intro e he
      rcases List.mem_append.mp he with he | he
      · rcases List.mem_singleton.mp he with rfl
        exact hd
      · exact hall e he
    · simp
    · simp only [List.length_append, List.length_singleton]
      omega
  · rintro ⟨hall, h1, h4⟩
    cases x with
    | nil => simp at h1
    | cons c rest =>
      refine (RegularExpression.mul_rmatch_iff _ _ _).mpr ⟨[c], rest, rfl, ?_, ?_⟩
      · exact (charClass_rmatch_iff _ _).mpr ⟨c, hall c (List.mem_cons_self _ _), rfl⟩
      · refine (upToRE_digit_rmatch_iff 3 rest).mpr
          ⟨fun e he => hall e (List.mem_cons_of_mem _ he), ?_⟩
        have : rest.length + 1 ≤ 4 := by simpa using h4
        omega

theorem fieldRE_rmatch_iff (x : List Char) :
    fieldRE.rmatch x = true ↔ validField x := by
  constructor
  · intro h
    rcases (RegularExpression.add_rmatch_iff _ _ x).mp h with h1 | h2
    · exact Or.inl ((digitsRE14_rmatch_iff x).mp h1)
    · rcases (charClass_rmatch_iff commandChars x).mp h2 with ⟨c, hc, rfl⟩
      exact Or.inr ⟨c, hc, rfl⟩
  · intro h
    rcases h with h | ⟨c, hc, rfl⟩
    · exact (RegularExpression.add_rmatch_iff _ _ _).mpr
        (Or.inl ((digitsRE14_rmatch_iff x).mpr h))
    · exact (RegularExpression.add_rmatch_iff _ _ _).mpr
        (Or.inr ((charClass_rmatch_iff _ _).mpr ⟨c, hc, rfl⟩))

theorem crlf_rmatch_iff (x : List Char) :
    (RegularExpression.char '\r' * RegularExpression.char '\n').rmatch x = true ↔
      x = ['\r', '\n'] := by
  constructor
  · intro h
    rcases (RegularExpression.mul_rmatch_iff _ _ x).mp h with ⟨t, u, rfl, ht, hu⟩
    rcases (RegularExpression.char_rmatch_iff _ t).mp ht with rfl
    rcases (RegularExpression.char_rmatch_iff _ u).mp hu with rfl
    rfl
  · rintro rfl
    exact (RegularExpression.mul_rmatch_iff _ _ _).mpr
      ⟨['\r'], ['\n'], rfl, (RegularExpression.char_rmatch_iff _ _).mpr rfl,
        (RegularExpression.char_rmatch_iff _ _).mpr rfl⟩

theorem sepField_rmatch_iff (t : List Char) :
    (RegularExpression.char '|' * fieldRE).rmatch t = true ↔
      ∃ f, validField f ∧ t = '|' :: f := by
  constructor
  · intro h
    rcases (RegularExpression.mul_rmatch_iff _ _ t).mp h with ⟨a, b, rfl, ha, hb⟩
    rcases (RegularExpression.char_rmatch_iff _ a).mp ha with rfl
    exact ⟨b, (fieldRE_rmatch_iff b).mp hb, rfl⟩
  · rintro ⟨f, hf, rfl⟩
    exact (RegularExpression.mul_rmatch_iff _ _ _).mpr
      ⟨['|'], f, rfl, (RegularExpression.char_rmatch_iff _ _).mpr rfl,
        (fieldRE_rmatch_iff f).mpr hf⟩

theorem chunks_to_fields (S : List (List Char))
    (hS : ∀ t ∈ S, (RegularExpression.char '|' * fieldRE).rmatch t = true) :
    ∃ fs : List (List Char), (∀ f ∈ fs, validField f) ∧
      S.flatten = (fs.map (fun f => '|' :: f)).flatten := by
  induction S with
  | nil => exact ⟨[], by simp, by simp⟩
  | cons t S ih =>
    rcases (sepField_rmatch_iff t).mp (hS t (List.mem_cons_self _ _)) with ⟨f, hf, rfl⟩
    rcases ih (fun s hs => hS s (List.mem_cons_of_mem _ hs)) with ⟨fs, hfs, heq⟩
    refine ⟨f :: fs, ?_, ?_⟩
    · intro g hg
      rcases List.mem_cons.mp hg with rfl | hg
      · exact hf
      · exact hfs g hg
    · simp [heq]

theorem sepStar_rmatch_iff (w : List Char) :
    ((RegularExpression.char '|' * fieldRE).star).rmatch w = true ↔
      ∃ fs : List (List Char), (∀ f ∈ fs, validField f) ∧
        w = (fs.map (fun f => '|' :: f)).flatten := by
  constructor
  · intro h
    rcases (RegularExpression.star_rmatch_iff _ w).mp h with ⟨S, rfl, hS⟩
    exact chunks_to_fields S (fun t ht => (hS t ht).2)
  · rintro ⟨fs, hfs, rfl⟩
    apply (RegularExpression.star_rmatch_iff _ _).mpr
    refine ⟨fs.map (fun f => '|' :: f), rfl, ?_⟩
    intro t ht
    rcases List.mem_map.mp ht with ⟨f, hf, rfl⟩
    exact ⟨by simp, (sepField_rmatch_iff _).mpr ⟨f, hfs f hf, rfl⟩⟩

theorem joinFields_cons (f : List Char) (fs : List (List Char)) :
    joinFields (f :: fs) = f ++ (fs.map (fun g => '|' :: g)).flatten := rfl

theorem expectedLinePattern_rmatch_iff (s : List Char) :
    expectedLinePattern.rmatch s = true ↔ specValidLine s := by
  constructor
  · intro h
    rcases (RegularExpression.mul_rmatch_iff _ _ s).mp h with ⟨t, u, rfl, ht, hu⟩
    rcases (RegularExpression.mul_rmatch_iff _ _ u).mp hu with ⟨w, v, rfl, hw, hv⟩
    rcases (crlf_rmatch_iff v).mp hv with rfl
    rcases (sepStar_rmatch_iff w).mp hw with ⟨fs, hfs, rfl⟩
    refine ⟨t :: fs, by simp, ?_, ?_⟩
    · intro f hf
      rcases List.mem_cons.mp hf with h | hf
      · subst h
        exact (fieldRE_rmatch_iff _).mp ht
      · exact hfs f hf
    · rw [joinFields_cons, List.append_assoc]
  · rintro ⟨fs, hne, hfs, rfl⟩
    cases fs with
    | nil => exact absurd rfl hne
    | cons f fs =>
      rw [joinFields_cons, List.append_assoc]
      refine (RegularExpression.mul_rmatch_iff _ _ _).mpr
        ⟨f, (fs.map (fun g => '|' :: g)).flatten ++ ['\r', '\n'], rfl,
          (fieldRE_rmatch_iff f).mpr (hfs f (List.mem_cons_self _ _)), ?_⟩
      refine (RegularExpression.mul_rmatch_iff _ _ _).mpr
        ⟨(fs.map (fun g => '|' :: g)).flatten, ['\r', '\n'], rfl, ?_, ?_⟩
      · exact (sepStar_rmatch_iff _).mpr ⟨fs, fun g hg => hfs g (List.mem_cons_of_mem _ hg), rfl⟩
      · exact (crlf_rmatch_iff _).mpr rfl

/-! ## Decoder bookkeeping lemmas -/

theorem trimSuffixCRLF_append (f : List Char) :
    trimSuffixCRLF (f ++ ['\r', '\n']) = f := by
  have hlen : (f ++ ['\r', '\n']).length = f.length + 2 := by simp
  have hdrop : (f ++ ['\r', '\n']).drop ((f ++ ['\r', '\n']).length - 2) = ['\r', '\n'] := by
    rw [hlen, Nat.add_sub_cancel]
    exact List.drop_left f ['\r', '\n']
  have htake : (f ++ ['\r', '\n']).take ((f ++ ['\r', '\n']).length - 2) = f := by
    rw [hlen, Nat.add_sub_cancel]
    exact List.take_left f ['\r', '\n']
  unfold trimSuffixCRLF
  rw [if_pos ⟨by omega, hdrop⟩, htake]

theorem splitOnChar_not_mem (sep : Char) (l : List Char) (h : sep ∉ l) :
    splitOnChar sep l = [l] := by
  induction l with
  | nil => rfl
  | cons c rest ih =>
    have hc : ¬c = sep := fun hc => h (hc ▸ List.mem_cons_self _ _)
    simp only [splitOnChar, ih (fun hm => h (List.mem_cons_of_mem _ hm)), if_neg hc]
    rfl

theorem updateSliderCount_count (st : SerialState) (n : Nat) :
    (updateSliderCount st n).lastKnownNumSliders = n := by
  by_cases h : n = st.lastKnownNumSliders
  · rw [updateSliderCount, if_neg (not_not_intro h)]
    exact h.symm
  · rw [updateSliderCount, if_pos h]

theorem updateSliderCount_of_ne (st : SerialState) (n : Nat)
    (h : n ≠ st.lastKnownNumSliders) :
    updateSliderCount st n =
      ⟨n, List.replicate n (-1 : ℚ)⟩ := by
  rw [updateSliderCount, if_pos h]

theorem numeric_not_command (f : List Char) (h : ∀ c ∈ f, c ∈ digitChars) :
    ¬f = ['='] ∧ ¬(f = ['+'] ∨ f = ['-'] ∨ f = ['^']) := by
  refine ⟨?_, ?_⟩
  · rintro rfl
    exact absurd (h '=' (List.mem_singleton_self _)) (by decide)
  · rintro (rfl | rfl | rfl)
    · exact absurd (h '+' (List.mem_singleton_self _)) (by decide)
    · exact absurd (h '-' (List.mem_singleton_self _)) (by decide)
    · exact absurd (h '^' (List.mem_singleton_self _)) (by decide)

theorem processLoop_numeric_cons (cfg : Config) (vals : List ℚ) (idx : Nat)
    (f : List Char) (rest : List (List Char))
    (hd : ∀ c ∈ f, c ∈ digitChars)
    (hok : ¬(idx = 0 ∧ 100 < atoi f)) :
    processLoop cfg vals idx (f :: rest) =
      ((processLoop cfg (vals.set idx (calculateNormalizedValue cfg (atoi f)))
          (idx + 1) rest).1,
        ⟨idx, calculateNormalizedValue cfg (atoi f), "="⟩ ::
          (processLoop cfg (vals.set idx (calculateNormalizedValue cfg (atoi f)))
            (idx + 1) rest).2) := by
  obtain ⟨h1, h2⟩ := numeric_not_command f hd
  simp only [processLoop, if_neg h1, if_neg h2, if_neg hok]

theorem processLoop_over100_cons (cfg : Config) (vals : List ℚ)
    (f : List Char) (rest : List (List Char))
    (hd : ∀ c ∈ f, c ∈ digitChars)
    (h100 : 100 < atoi f) :
    processLoop cfg vals 0 (f :: rest) = (vals, []) := by
  obtain ⟨h1, h2⟩ := numeric_not_command f hd
  simp only [processLoop, if_neg h1, if_neg h2]
  rw [if_pos (⟨trivial, h100⟩ : True ∧ 100 < atoi f)]

theorem processLoop_preserves_lower (cfg : Config) :
    ∀ (fields : List (List Char)) (vals : List ℚ) (idx j : Nat), j < idx →
      (processLoop cfg vals idx fields).1[j]? = vals[j]? := by
  intro fields
  induction fields with
  | nil =>
    intro vals idx j _
    rfl
  | cons f rest ih =>
    intro vals idx j hj
    by_cases h1 : f = ['=']
    · simp only [processLoop, if_pos h1]
      exact ih vals (idx + 1) j (by omega)
    · by_cases h2 : f = ['+'] ∨ f = ['-'] ∨ f = ['^']
      · simp only [processLoop, if_neg h1, if_pos h2]
        exact ih vals (idx + 1) j (by omega)
      · by_cases h3 : idx = 0 ∧ 100 < atoi f
        · simp only [processLoop, if_neg h1, if_neg h2, if_pos h3]
        · simp only [processLoop, if_neg h1, if_neg h2, if_neg h3]
          rw [ih _ (idx + 1) j (by omega)]
          exact List.getElem?_set_ne (by omega)

theorem processLoop_all_numeric_length (cfg : Config) :
    ∀ (fields : List (List Char)) (vals : List ℚ) (idx : Nat),
      (∀ f ∈ fields, f ≠ [] ∧ ∀ c ∈ f, c ∈ digitChars) → idx ≠ 0 →
      (processLoop cfg vals idx fields).2.length = fields.length := by
  intro fields
  induction fields with
  | nil =>
    intro vals idx _ _
    rfl
  | cons f rest ih =>
    intro vals idx hf hidx
    obtain ⟨-, hd⟩ := hf f (List.mem_cons_self _ _)
    rw [processLoop_numeric_cons cfg vals idx f rest hd (by rintro ⟨rfl, -⟩; exact hidx rfl)]
    simp only [List.length_cons]
    rw [ih _ (idx + 1) (fun g hg => hf g (List.mem_cons_of_mem _ hg)) (by omega)]

theorem processSliderValues_all_numeric_length (cfg : Config) (vals : List ℚ)
    (fields : List (List Char))
    (hf : ∀ f ∈ fields, f ≠ [] ∧ ∀ c ∈ f, c ∈ digitChars)
    (h100 : ∀ f0 r, fields = f0 :: r → atoi f0 ≤ 100) :
    (processSliderValues cfg vals fields).2.length = fields.length := by
  cases fields with
  | nil => rfl
  | cons f rest =>
    obtain ⟨-, hd⟩ := hf f (List.mem_cons_self _ _)
    rw [processSliderValues, processLoop_numeric_cons cfg vals 0 f rest hd
      (by rintro ⟨-, hgt⟩; exact absurd hgt (not_lt.mpr (h100 f rest rfl)))]
    simp only [List.length_cons]
    rw [processLoop_all_numeric_length cfg rest _ 1
      (fun g hg => hf g (List.mem_cons_of_mem _ hg)) one_ne_zero]

theorem processLoop_command_event (cfg : Config) :
    ∀ (fields : List (List Char)) (vals : List ℚ) (idx : Nat) (ev : SliderMoveEvent),
      ev ∈ (processLoop cfg vals idx fields).2 →
      (ev.Command = "+" ∨ ev.Command = "-" ∨ ev.Command = "^") →
      ev.PercentValue = 1 ∧ idx ≤ ev.SliderID ∧
        (fields[ev.SliderID - idx]? = some ev.Command.data) ∧
        (processLoop cfg vals idx fields).1[ev.SliderID]? = vals[ev.SliderID]? := by
  intro fields
  induction fields with
  | nil =>
    intro vals idx ev hev _
    simp [processLoop] at hev
  | cons f rest ih =>
    intro vals idx ev hev hcmd
    by_cases h1 : f = ['=']
    · simp only [processLoop, if_pos h1] at hev ⊢
      obtain ⟨hp, hle, hget, hpres⟩ := ih vals (idx + 1) ev hev hcmd
      refine ⟨hp, by omega, ?_, hpres⟩
      rw [show ev.SliderID - idx = (ev.SliderID - (idx + 1)) + 1 by omega]
      simpa using hget
    · by_cases h2 : f = ['+'] ∨ f = ['-'] ∨ f = ['^']
      · simp only [processLoop, if_neg h1, if_pos h2] at hev ⊢
        rcases List.mem_cons.mp hev with rfl | hevr
        · refine ⟨rfl, le_refl _, ?_, ?_⟩
          · rw [Nat.sub_self]
            simp
          · exact processLoop_preserves_lower cfg rest vals (idx + 1) idx (by omega)
        · obtain ⟨hp, hle, hget, hpres⟩ := ih vals (idx + 1) ev hevr hcmd
          refine ⟨hp, by omega, ?_, hpres⟩
          rw [show ev.SliderID - idx = (ev.SliderID - (idx + 1)) + 1 by omega]
          simpa using hget
      · by_cases h3 : idx = 0 ∧ 100 < atoi f
        · simp only [processLoop, if_neg h1, if_neg h2, if_pos h3] at hev
          simp at hev
        · simp only [processLoop, if_neg h1, if_neg h2, if_neg h3] at hev ⊢
          rcases List.mem_cons.mp hev with rfl | hevr
          · rcases hcmd with h | h | h <;> simp at h
          · obtain ⟨hp, hle, hget, hpres⟩ := ih _ (idx + 1) ev hevr hcmd
            refine ⟨hp, by omega, ?_, ?_⟩
            · rw [show ev.SliderID - idx = (ev.SliderID - (idx + 1)) + 1 by omega]
              simpa using hget
            · rw [hpres, List.getElem?_set_ne (by omega)]

/-! ## Single-numeric-field decoding, for C1 -/

theorem handleLine_single_numeric (cfg : Config) (st : SerialState) (f : List Char)
    (hne : f ≠ []) (hlen : f.length ≤ 4) (hd : ∀ c ∈ f, c ∈ digitChars)
    (h100 : atoi f ≤ 100) :
    handleLine cfg st (f ++ ['\r', '\n']) =
      (⟨1, (updateSliderCount st 1).currentSliderPercentValues.set 0
          (calculateNormalizedValue cfg (atoi f))⟩,
        [⟨0, calculateNormalizedValue cfg (atoi f), "="⟩]) := by
  have hvalid : specValidLine (f ++ ['\r', '\n']) := by
    refine ⟨[f], by simp, ?_, by simp [joinFields]⟩
    intro g hg
    rcases List.mem_singleton.mp hg with rfl
    exact Or.inl ⟨hd, List.length_pos.mpr hne, hlen⟩
  have hm : expectedLinePattern.rmatch (f ++ ['\r', '\n']) = true :=
    (expectedLinePattern_rmatch_iff _).mpr hvalid
  have hsplit : splitOnChar '|' f = [f] :=
    splitOnChar_not_mem '|' f (fun hmem => absurd (hd '|' hmem) (by decide))
  unfold handleLine
  rw [hm, if_pos rfl]
  simp only [trimSuffixCRLF_append, hsplit, List.length_singleton, processSliderValues,
    processLoop_numeric_cons cfg (updateSliderCount st 1).currentSliderPercentValues 0 f []
      hd (fun h => absurd h.2 (not_lt.mpr h100)),
    processLoop]
  rw [updateSliderCount_count]

/-! ## The claims -/

/-- Claim C1, corrected: the noise-suppression comparison is commented out in
`processSliderValues`, so with `lastValue = 0.50` even a re-reading of the
very same value (delta 0, below every noise threshold) produces a `Set`
event, and re-decoding the same line with identical prior state produces the
event again. -/
theorem C1_counterexample :
    (handleLine ⟨false⟩ ⟨1, [1/2]⟩ ['5', '0', '\r', '\n']).2 =
      [⟨0, 1/2, "="⟩] ∧
    (handleLine ⟨false⟩ (handleLine ⟨false⟩ ⟨1, [1/2]⟩ ['5', '0', '\r', '\n']).1
        ['5', '0', '\r', '\n']).2 = [⟨0, 1/2, "="⟩] := by
  have hv : calculateNormalizedValue ⟨false⟩ (atoi ['5', '0']) = 1/2 := by
    have ha : atoi ['5', '0'] = 50 := by decide
    rw [ha]
    norm_num [calculateNormalizedValue, normalizeScalar]
  have h1 := handleLine_single_numeric ⟨false⟩ ⟨1, [1/2]⟩ ['5', '0']
    (by decide) (by decide) (by decide) (by decide)
  have hu : updateSliderCount ⟨1, [1/2]⟩ 1 = ⟨1, ([1/2] : List ℚ)⟩ := rfl
  rw [hu] at h1
  have h2 := handleLine_single_numeric ⟨false⟩
    ⟨1, ([1/2] : List ℚ).set 0 (calculateNormalizedValue ⟨false⟩ (atoi ['5', '0']))⟩
    ['5', '0'] (by decide) (by decide) (by decide) (by decide)
  constructor
  · rw [show (['5', '0', '\r', '\n'] : List Char) = ['5', '0'] ++ ['\r', '\n'] from rfl,
      h1, hv]
  · rw [show (['5', '0', '\r', '\n'] : List Char) = ['5', '0'] ++ ['\r', '\n'] from rfl,
      h1]
    show (handleLine ⟨false⟩
      ⟨1, ([1/2] : List ℚ).set 0 (calculateNormalizedValue ⟨false⟩ (atoi ['5', '0']))⟩
      (['5', '0'] ++ ['\r', '\n'])).2 = [⟨0, 1/2, "="⟩]
    rw [h2, hv]

/-- Claim C1, amended: the decoder applies no noise threshold at all. For
every single-field numeric line in range, decoding emits exactly one `Set`
event carrying the normalized value — regardless of the previously observed
value — and re-decoding the same line against the resulting state emits the
same event again (decoding is idempotent on the state but not silent on the
second decode). -/
theorem C1_theorem (cfg : Config) (st : SerialState) (f : List Char)
    (hne : f ≠ []) (hlen : f.length ≤ 4) (hd : ∀ c ∈ f, c ∈ digitChars)
    (h100 : atoi f ≤ 100) :
    (handleLine cfg st (f ++ ['\r', '\n'])).2 =
      [⟨0, calculateNormalizedValue cfg (atoi f), "="⟩] ∧
    (handleLine cfg (handleLine cfg st (f ++ ['\r', '\n'])).1
        (f ++ ['\r', '\n'])).2 =
      (handleLine cfg st (f ++ ['\r', '\n'])).2 := by
  have h1 := handleLine_single_numeric cfg st f hne hlen hd h100
  have h2 := handleLine_single_numeric cfg
    ⟨1, (updateSliderCount st 1).currentSliderPercentValues.set 0
      (calculateNormalizedValue cfg (atoi f))⟩ f hne hlen hd h100
  constructor
  · rw [h1]
  · rw [h1]
    show (handleLine cfg
      ⟨1, (updateSliderCount st 1).currentSliderPercentValues.set 0
        (calculateNormalizedValue cfg (atoi f))⟩ (f ++ ['\r', '\n'])).2 =
      [⟨0, calculateNormalizedValue cfg (atoi f), "="⟩]
    rw [h2]

/-- Witness for C1: reading `60` against `lastValue = 0.50` emits exactly one
`Set` event with the normalized value, and re-decoding emits it again. -/
theorem C1_witness :
    (handleLine ⟨false⟩ ⟨1, [1/2]⟩ (['6', '0'] ++ ['\r', '\n'])).2 =
      [⟨0, calculateNormalizedValue ⟨false⟩ (atoi ['6', '0']), "="⟩] ∧
    (handleLine ⟨false⟩ (handleLine ⟨false⟩ ⟨1, [1/2]⟩ (['6', '0'] ++ ['\r', '\n'])).1
        (['6', '0'] ++ ['\r', '\n'])).2 =
      (handleLine ⟨false⟩ ⟨1, [1/2]⟩ (['6', '0'] ++ ['\r', '\n'])).2 :=
  C1_theorem ⟨false⟩ ⟨1, [1/2]⟩ ['6', '0'] (by decide) (by decide) (by decide) (by decide)

/-- For C2: a grammar-valid line whose first field is numeric and exceeds 100
yields no events and no per-value write, but the slider-count update has
already happened. -/
theorem handleLine_over100 (cfg : Config) (st : SerialState) (line : List Char)
    (hm : expectedLinePattern.rmatch line = true)
    (f : List Char) (rest : List (List Char))
    (hsplit : splitOnChar '|' (trimSuffixCRLF line) = f :: rest)
    (hd : ∀ c ∈ f, c ∈ digitChars) (h100 : 100 < atoi f) :
    handleLine cfg st line = (updateSliderCount st (rest.length + 1), []) := by
  unfold handleLine
  rw [hm, if_pos rfl]
  simp only [hsplit, List.length_cons, processSliderValues,
    processLoop_over100_cons cfg
      (updateSliderCount st (rest.length + 1)).currentSliderPercentValues f rest hd h100]

/-- Claim C2, corrected: an index-0 value over 100 does discard the line
(zero events) and writes no slider value, but it does *not* leave the
observed-value history untouched: `updateSliderCount` has already run, so a
line whose field count differs from `lastKnownNumSliders` re-sizes the
buffer and resets it to the sentinel before the line is dropped. Here the
state moves from `⟨2, [0, 0]⟩` to `⟨1, [-1]⟩` although the only line decoded
was discarded. -/
theorem C2_counterexample :
    (handleLine ⟨false⟩ ⟨2, [0, 0]⟩ ['1', '0', '1', '\r', '\n']).2 = [] ∧
    (handleLine ⟨false⟩ ⟨2, [0, 0]⟩ ['1', '0', '1', '\r', '\n']).1 ≠ ⟨2, [0, 0]⟩ := by
  constructor
  · have h := handleLine_over100 ⟨false⟩ ⟨2, [0, 0]⟩ ['1', '0', '1', '\r', '\n']
      (by decide) ['1', '0', '1'] [] (by decide) (by decide) (by decide)
    rw [h]
  · have h := handleLine_over100 ⟨false⟩ ⟨2, [0, 0]⟩ ['1', '0', '1', '\r', '\n']
      (by decide) ['1', '0', '1'] [] (by decide) (by decide) (by decide)
    rw [h]
    intro hfalse
    have : (1 : Nat) = 2 := congrArg SerialState.lastKnownNumSliders hfalse
    omega

/-- Claim C2, amended: a line failing the grammar yields zero events and
leaves both `lastKnownNumSliders` and `currentSliderPercentValues`
unchanged; a grammar-valid line whose index-0 numeric value exceeds 100
yields zero events and writes no slider value, but leaves the history in the
state produced by `updateSliderCount` for the line's field count. -/
theorem C2_theorem (cfg : Config) (st : SerialState) (line : List Char) :
    (expectedLinePattern.rmatch line = false → handleLine cfg st line = (st, [])) ∧
    (∀ f rest, expectedLinePattern.rmatch line = true →
      splitOnChar '|' (trimSuffixCRLF line) = f :: rest →
      (∀ c ∈ f, c ∈ digitChars) → 100 < atoi f →
      handleLine cfg st line = (updateSliderCount st (rest.length + 1), [])) := by
  constructor
  · intro hm
    unfold handleLine
    rw [hm]
    simp
  · intro f rest hm hsplit hd h100
    exact handleLine_over100 cfg st line hm f rest hsplit hd h100

/-- Witness for C2: a malformed line (`45x`) is dropped with the state
untouched, and the over-range line `101` yields no events while the history
is re-sized for its single field. -/
theorem C2_witness :
    handleLine ⟨false⟩ ⟨2, [0, 0]⟩ ['4', '5', 'x', '\r', '\n'] = (⟨2, [0, 0]⟩, []) ∧
    handleLine ⟨false⟩ ⟨2, [0, 0]⟩ ['1', '0', '1', '\r', '\n'] =
      (updateSliderCount ⟨2, [0, 0]⟩ 1, []) :=
  ⟨(C2_theorem ⟨false⟩ ⟨2, [0, 0]⟩ _).1 (by decide),
    (C2_theorem ⟨false⟩ ⟨2, [0, 0]⟩ _).2 ['1', '0', '1'] [] (by decide) (by decide)
      (by decide) (by decide)⟩

/-- Claim C3, confirmed: a line is accepted by the decoder's pattern iff it
is one or more fields separated by `|`, each 1–4 ASCII digits or a single
`=`, `+`, `^` or `-`, terminated by `\r\n`; a line outside the grammar is
discarded silently — the state is unchanged and no event (and no error: the
handler has no error channel) is produced. -/
theorem C3_theorem (line : List Char) :
    (expectedLinePattern.rmatch line = true ↔ specValidLine line) ∧
    (¬specValidLine line → ∀ cfg st, handleLine cfg st line = (st, [])) := by
  refine ⟨expectedLinePattern_rmatch_iff line, ?_⟩
  intro hns cfg st
  have hm : expectedLinePattern.rmatch line = false := by
    cases hmatch : expectedLinePattern.rmatch line
    · rfl
    · exact absurd ((expectedLinePattern_rmatch_iff line).mp hmatch) hns
  unfold handleLine
  rw [hm]
  simp

/-- Witness for C3: `45|7x` fails the grammar and is dropped silently. -/
theorem C3_witness :
    expectedLinePattern.rmatch ['4', '5', '|', '7', 'x', '\r', '\n'] = false ∧
    handleLine ⟨false⟩ ⟨0, []⟩ ['4', '5', '|', '7', 'x', '\r', '\n'] = (⟨0, []⟩, []) := by
  have h := C3_theorem ['4', '5', '|', '7', 'x', '\r', '\n']
  have hm : expectedLinePattern.rmatch ['4', '5', '|', '7', 'x', '\r', '\n'] = false := by
    decide
  refine ⟨hm, h.2 (fun hs => ?_) ⟨false⟩ ⟨0, []⟩⟩
  have := (h.1).mpr hs
  rw [hm] at this
  exact Bool.false_ne_true this

/-- Claim C8, confirmed: a differing field count re-sizes the history buffer
to the new count with every entry set to the sentinel `-1.0`, and a
subsequent line of in-range numeric fields emits one event per field
(the current decoder emits them regardless of prior values anyway, the
noise gate being absent). -/
theorem C8_theorem (st : SerialState) (n : Nat) (hne : n ≠ st.lastKnownNumSliders) :
    updateSliderCount st n = ⟨n, List.replicate n (-1 : ℚ)⟩ ∧
    ∀ (cfg : Config) (fields : List (List Char)),
      fields.length = n →
      (∀ f ∈ fields, f ≠ [] ∧ ∀ c ∈ f, c ∈ digitChars) →
      (∀ f0 r, fields = f0 :: r → atoi f0 ≤ 100) →
      (processSliderValues cfg
          (updateSliderCount st n).currentSliderPercentValues fields).2.length =
        fields.length := by
  refine ⟨updateSliderCount_of_ne st n hne, ?_⟩
  intro cfg fields _ hf h100
  exact processSliderValues_all_numeric_length cfg _ fields hf h100

/-- Witness for C8: after a count change from 0 to 2, the buffer is
`[-1, -1]` and the two-field line `30|99` emits two events. -/
theorem C8_witness :
    updateSliderCount ⟨0, []⟩ 2 = ⟨2, List.replicate 2 (-1 : ℚ)⟩ ∧
    (processSliderValues ⟨false⟩
        (updateSliderCount ⟨0, []⟩ 2).currentSliderPercentValues
        [['3', '0'], ['9', '9']]).2.length = 2 := by
  have h := C8_theorem ⟨0, []⟩ 2 (by decide)
  refine ⟨h.1, h.2 ⟨false⟩ [['3', '0'], ['9', '9']] (by decide) (by decide) ?_⟩
  rintro f0 r hr
  cases hr
  decide

/-- Claim C9, confirmed: `NewSerialIO` substitutes `COM5` for an empty
configured COM port while the config loader's default for an empty
`com_port` is `COM4`; the two components disagree. -/
theorem C9_theorem :
    newSerialIOComPort "" = "COM5" ∧
    populateFromVipersComPort "" = defaultCOMPort ∧
    defaultCOMPort = "COM4" ∧
    newSerialIOComPort "" ≠ populateFromVipersComPort "" := by
  refine ⟨rfl, rfl, rfl, ?_⟩
  decide

/-- Claim C10, confirmed: every event emitted for a `+`, `-` or `^` field
carries `PercentValue` 1.0 and the field's position as `SliderID`, the field
at that position is exactly that command character, and the observed-value
history entry at that position is left unchanged by the whole pass. -/
theorem C10_theorem (cfg : Config) (vals : List ℚ) (fields : List (List Char))
    (ev : SliderMoveEvent)
    (hev : ev ∈ (processSliderValues cfg vals fields).2)
    (hcmd : ev.Command = "+" ∨ ev.Command = "-" ∨ ev.Command = "^") :
    ev.PercentValue = 1 ∧ fields[ev.SliderID]? = some ev.Command.data ∧
      (processSliderValues cfg vals fields).1[ev.SliderID]? = vals[ev.SliderID]? := by
  obtain ⟨hp, -, hget, hpres⟩ := processLoop_command_event cfg fields vals 0 ev hev hcmd
  refine ⟨hp, ?_, hpres⟩
  simpa using hget

/-- Claim C4, confirmed: every host→device message is ASCII wrapped in `<`
and `>`: the name announcement is `^` followed by the `|`-joined names, the
master-state update is `!`, the mute flag (0 or 1), `|` and a volume percent
in 0–100 (for a master volume in `[0,1]`), and the keep-alive is the single
character `#`. -/
theorem C4_theorem (names : List String) (mute : Bool) (v : ℚ)
    (h0 : 0 ≤ v) (h1 : v ≤ 1) :
    sliderNamesMessage (joinedSliderNames names) =
      "<" ++ ("^" ++ String.intercalate "|" names) ++ ">" ∧
    masterUpdateMessage mute v =
      "<" ++ ("!" ++ toString (if mute then (1 : ℤ) else 0) ++ "|" ++
        toString (volumePercentOf v)) ++ ">" ∧
    ((if mute then (1 : ℤ) else 0) = 0 ∨ (if mute then (1 : ℤ) else 0) = 1) ∧
    0 ≤ volumePercentOf v ∧ volumePercentOf v ≤ 100 ∧
    keepAliveMessage = "<" ++ "#" ++ ">" := by
  have hv100 : (0 : ℚ) ≤ v * 100 := mul_nonneg h0 (by norm_num)
  have hv100le : v * 100 ≤ 100 := by nlinarith
  have htr : volumePercentOf v = ⌊v * 100⌋ := by
    rw [volumePercentOf, goTrunc, if_neg (not_lt.mpr hv100)]
  refine ⟨?_, ?_, ?_, ?_, ?_, rfl⟩
  · rw [sliderNamesMessage, joinedSliderNames,
      show ("<^" : String) = "<" ++ "^" from rfl]
    simp only [String.append_assoc]
  · rw [masterUpdateMessage, show ("<!" : String) = "<" ++ "!" from rfl]
    simp only [String.append_assoc]
  · cases mute
    · exact Or.inl rfl
    · exact Or.inr rfl
  · rw [htr]
    exact Int.le_floor.mpr (by exact_mod_cast hv100)
  · rw [htr]
    have hfl : ⌊v * 100⌋ ≤ ⌊(100 : ℚ)⌋ := Int.floor_le_floor hv100le
    have h100 : ⌊(100 : ℚ)⌋ = 100 := by norm_num
    omega

/-- Witness for C4: two names, muted, full volume. -/
theorem C4_witness :
    sliderNamesMessage (joinedSliderNames ["Master", "Discord"]) =
      "<" ++ ("^" ++ String.intercalate "|" ["Master", "Discord"]) ++ ">" ∧
    masterUpdateMessage true 1 =
      "<" ++ ("!" ++ toString (if true then (1 : ℤ) else 0) ++ "|" ++
        toString (volumePercentOf 1)) ++ ">" ∧
    0 ≤ volumePercentOf 1 ∧ volumePercentOf 1 ≤ 100 := by
  have h := C4_theorem ["Master", "Discord"] true 1 zero_le_one le_rfl
  exact ⟨h.1, h.2.1, h.2.2.2.1, h.2.2.2.2.1⟩

/-- Claim C5: the spec requires every native handle opened during a failed
enumeration pass to be released before the error is returned, and
`GetAllSessions` carries a `cleanup` closure for exactly that purpose — but
`getAllSessionsInternal` returns `nil` instead of the partial session slice
on every error path, so `cleanup` always receives an empty slice. In the
modelled failing pass (master-output session opened, then
`EnumAudioEndpoints` fails on all retries) the error is returned while the
master-output volume handle (id 2) is still open. -/
theorem C5_theorem :
    (GetAllSessionsF c5Env ⟨0, [], []⟩).1 = none ∧
    2 ∈ (GetAllSessionsF c5Env ⟨0, [], []⟩).2.opened ∧
    2 ∉ (GetAllSessionsF c5Env ⟨0, [], []⟩).2.released := by decide

/-- Claim C6, confirmed: a default-device-change notification within 100ms
of the previous accepted one does nothing; otherwise it records the time and
marks the existing master output and input sessions stale via `markAsStale`;
in neither case does the callback release a session. -/
theorem C6_theorem (sf : FinderNotificationState) (now : ℤ) :
    (now < sf.lastDefaultDeviceChange + minDefaultDeviceChangeThresholdMs →
      defaultDeviceChangedCallback sf now = sf) ∧
    (sf.lastDefaultDeviceChange + minDefaultDeviceChangeThresholdMs ≤ now →
      (defaultDeviceChangedCallback sf now).masterOut = sf.masterOut.map markAsStale ∧
      (defaultDeviceChangedCallback sf now).masterIn = sf.masterIn.map markAsStale ∧
      (defaultDeviceChangedCallback sf now).lastDefaultDeviceChange = now) ∧
    ((defaultDeviceChangedCallback sf now).masterOut.map MasterSessionModel.released =
        sf.masterOut.map MasterSessionModel.released ∧
      (defaultDeviceChangedCallback sf now).masterIn.map MasterSessionModel.released =
        sf.masterIn.map MasterSessionModel.released) := by
  refine ⟨?_, ?_, ?_⟩
  · intro h
    rw [defaultDeviceChangedCallback, if_pos h]
  · intro h
    rw [defaultDeviceChangedCallback, if_neg (not_lt.mpr h)]
    exact ⟨rfl, rfl, rfl⟩
  · by_cases h : now < sf.lastDefaultDeviceChange + minDefaultDeviceChangeThresholdMs
    · rw [defaultDeviceChangedCallback, if_pos h]
      exact ⟨rfl, rfl⟩
    · rw [defaultDeviceChangedCallback, if_neg h]
      constructor
      · cases sf.masterOut <;> rfl
      · cases sf.masterIn <;> rfl

/-- Witness for C6: with the last accepted change at time 0 and an existing
master output session, a notification at 50ms is ignored and one at 150ms
marks the session stale and records the time. -/
theorem C6_witness :
    defaultDeviceChangedCallback ⟨0, some ⟨false, false⟩, none⟩ 50 =
      ⟨0, some ⟨false, false⟩, none⟩ ∧
    (defaultDeviceChangedCallback ⟨0, some ⟨false, false⟩, none⟩ 150).masterOut =
      (some (⟨false, false⟩ : MasterSessionModel)).map markAsStale ∧
    (defaultDeviceChangedCallback
        ⟨0, some ⟨false, false⟩, none⟩ 150).lastDefaultDeviceChange = 150 := by
  refine ⟨(C6_theorem ⟨0, some ⟨false, false⟩, none⟩ 50).1 (by decide), ?_, ?_⟩
  · exact ((C6_theorem ⟨0, some ⟨false, false⟩, none⟩ 150).2.1 (by decide)).1
  · exact ((C6_theorem ⟨0, some ⟨false, false⟩, none⟩ 150).2.1 (by decide)).2.2

/-- Claim C7, corrected: the monitor's two configured rates are not
distinct — `lowFreqInterval` and `highFreqInterval` are both 10ms in this
revision of `startMasterVolumeMonitor`. -/
theorem C7_counterexample :
    lowFreqIntervalMs = highFreqIntervalMs ∧ lowFreqIntervalMs = 10 := by decide

/-- After `k ≥ 1` consecutive stable ticks bringing the stability counter to
the threshold, the monitor's interval is the low-frequency one. -/
theorem tickStable_interval_low (k : Nat) :
    ∀ st : MonitorState, 1 ≤ k → stableThreshold ≤ st.stableCounter + k →
      (tickStable^[k] st).interval = lowFreqIntervalMs := by
  induction k with
  | zero =>
    intro st h1 _
    exact absurd h1 (by decide)
  | succ k ih =>
    intro st _ h2
    rw [Function.iterate_succ_apply]
    have hc : (tickStable st).stableCounter = st.stableCounter + 1 := by
      rw [tickStable, monitorTick, if_neg (by simp)]
    by_cases hk : 1 ≤ k
    · exact ih (tickStable st) hk (by omega)
    · have hk0 : k = 0 := by omega
      subst hk0
      rw [Function.iterate_zero_apply]
      rw [tickStable, monitorTick, if_neg (by simp)]
      by_cases hi : st.interval = lowFreqIntervalMs
      · rw [if_neg (fun hcon => hcon.2 hi)]
        exact hi
      · rw [if_pos ⟨by omega, hi⟩]

/-- Claim C7, amended: the monitor is a single polling loop with two
configured rates (which happen to be equal, both 10ms): on a tick where
volume or mute differs from the last observed values it immediately sends
the update message, resets the stability counter to 0 and sets the
high-frequency interval; on an unchanged tick it sends nothing and
increments the counter; and after 100 consecutive unchanged ticks the
interval is the low-frequency one. -/
theorem C7_theorem (st : MonitorState) (v : ℚ) (m : Bool) (k : Nat) :
    (st.lastVolume ≠ v ∨ m ≠ st.lastMute →
      (monitorTick st v m).2 = some (masterUpdateMessage m v) ∧
      (monitorTick st v m).1.stableCounter = 0 ∧
      (monitorTick st v m).1.interval = highFreqIntervalMs) ∧
    (st.lastVolume = v → m = st.lastMute →
      (monitorTick st v m).2 = none ∧
      (monitorTick st v m).1.stableCounter = st.stableCounter + 1) ∧
    (1 ≤ k → stableThreshold ≤ st.stableCounter + k →
      (tickStable^[k] st).interval = lowFreqIntervalMs) := by
  refine ⟨?_, ?_, tickStable_interval_low k st⟩
  · intro h
    rw [monitorTick, if_pos h]
    refine ⟨rfl, rfl, ?_⟩
    by_cases hi : st.interval = highFreqIntervalMs
    · rw [if_neg (fun hcon => hcon hi)]
      exact hi
    · rw [if_pos hi]
  · intro h1 h2
    rw [monitorTick, if_neg (by rw [h1, h2]; simp)]
    exact ⟨rfl, rfl⟩

/-- Witness for C7: from an idle state at volume 0, a poll reading volume 1
sends the update, zeroes the counter and sets the high rate; 100 stable
polls later the interval is the low rate. -/
theorem C7_witness :
    (monitorTick ⟨lowFreqIntervalMs, 0, false, 0⟩ 1 false).2 =
      some (masterUpdateMessage false 1) ∧
    (monitorTick ⟨lowFreqIntervalMs, 0, false, 0⟩ 1 false).1.stableCounter = 0 ∧
    (monitorTick ⟨lowFreqIntervalMs, 0, false, 0⟩ 1 false).1.interval =
      highFreqIntervalMs ∧
    (tickStable^[100] ⟨lowFreqIntervalMs, 0, false, 0⟩).interval =
      lowFreqIntervalMs := by
  have h := C7_theorem ⟨lowFreqIntervalMs, 0, false, 0⟩ 1 false 100
  obtain ⟨ha, hb, hc⟩ := h.1 (Or.inl (by decide))
  exact ⟨ha, hb, hc, h.2.2 (by decide) (by decide)⟩

/-- Witness for C10: the `+` at position 0 of `+|45` yields the event
`⟨0, 1.0, "+"⟩` and position 0 of the history is untouched. -/
theorem C10_witness :
    (⟨0, 1, "+"⟩ : SliderMoveEvent).PercentValue = 1 ∧
    ([['+'], ['4', '5']] :
        List (List Char))[(⟨0, 1, "+"⟩ : SliderMoveEvent).SliderID]? =
      some (⟨0, 1, "+"⟩ : SliderMoveEvent).Command.data ∧
    (processSliderValues ⟨false⟩ [0, 0]
        [['+'], ['4', '5']]).1[(⟨0, 1, "+"⟩ : SliderMoveEvent).SliderID]? =
      ([0, 0] : List ℚ)[(⟨0, 1, "+"⟩ : SliderMoveEvent).SliderID]? :=
  C10_theorem ⟨false⟩ [0, 0] [['+'], ['4', '5']] ⟨0, 1, "+"⟩ (by decide) (by decide)

end DeejX
